import Mathlib

/-!
Shallow embedding of the Hunger-Wings RAG pipeline
(src/Scripts/agentes/Agente_semantico.py, src/api.py,
src/Scripts/Procesamiento.py, src/Scripts/Prueba_JSON.py),
with theorems settling the specification claims.

External services (the Chroma vector store, the Gemini LLM and the
JsonOutputParser of langchain) are modelled as capability doubles:
functions supplied as parameters, returning `Except String` values where
the Python call can raise.  An `Except.error e` models a raised Python
exception with message `e`; `Except.ok` models normal return.
-/

namespace HungerWings

/-- A langchain `Document` as used by the repository: a metadata dict and
the chunk text (`page_content`).  Only the keys `source` and `name` are
ever read by the code; the dict is modelled as an association list. -/
structure Document where
  metadata : List (String × String)
  page_content : String

/-- Python `dict.get(key, default)` on the metadata association list. -/
def Document.metaGet (d : Document) (key dflt : String) : String :=
  (List.lookup key d.metadata).getD dflt

/-- The input dict built in `BiologySemanticAgent.generate`
(question, context, json_schema keys). -/
structure ChainInput where
  question : String
  context : String
  json_schema : String

/-- The format instructions returned by
`JsonOutputParser.get_format_instructions()` — a fixed string constant of
the external langchain library; its exact content is irrelevant to every
claim, so it is modelled as an abstract fixed string. -/
def format_instructions : String :=
  "Return a JSON object."

/-- One formatted record of `_format_context`, at a given 1-based rank:
the exact f-string of Agente_semantico.py lines 108-114, with
`name = metadata.get(name, default)` and `source = metadata.get(source,
default)`. -/
def mk_record (rank : Nat) (d : Document) : String :=
  "### Fragmento #" ++ toString rank ++ "\n" ++
  "**Nombre:** " ++ d.metaGet "name" "Documento sin nombre" ++ "\n" ++
  "**Fuente/Link:** " ++ d.metaGet "source" "Fuente Desconocida" ++ "\n" ++
  "**Contenido:**\n" ++
  d.page_content ++ "\n"

/-- The list built by the `for i, doc in enumerate(documents)` loop of
`_format_context`, carrying the running 0-based index `i` (the record
displays rank `i + 1`). -/
def format_records : Nat → List Document → List String
  | _, [] => []
  | i, d :: ds => mk_record (i + 1) d :: format_records (i + 1) ds

/-- `BiologySemanticAgent._format_context`: join the records with the
separator used by the code. -/
def format_context (documents : List Document) : String :=
  String.intercalate "\n---\n" (format_records 0 documents)

/-- The prompt template `_PROMP` of Agente_semantico.py with its three
placeholders substituted (modelling `PromptTemplate.from_template` plus
formatting). -/
def build_prompt (inp : ChainInput) : String :=
  "\n    Eres un experto en biología espacial. Tu tarea es responder la pregunta del usuario.\n    \n    INSTRUCCIONES CLAVE:\n    1. Utiliza **exclusivamente** la información de los fragmentos proporcionados en el [CONTEXTO RECUPERADO].\n    2. Genera la respuesta **SOLO** en formato JSON que se ajuste estrictamente al esquema JSON proporcionado.\n    3. Para la sección 'grafo', extrae los conceptos clave de los documentos recuperados y utiliza su 'metadata' para llenar los campos 'titulo' y 'link'.\n    \n    Pregunta: " ++ inp.question ++ "\n    \n    [CONTEXTO RECUPERADO]:\n    " ++ inp.context ++ "\n\n    [ESQUEMA JSON REQUERIDO]:\n    " ++ inp.json_schema ++ "\n"

/-- Capability doubles for the external collaborators of
`BiologySemanticAgent`: the vector store similarity search, the LLM call
(on the already formatted prompt) and the JSON output parsing step.  The
result type `α` of parsing (a Python dict) is a type parameter. -/
structure Capabilities (α : Type) where
  similarity_search : String → Int → Except String (List Document)
  llm_invoke : String → Except String String
  parse : String → Except String α

/-- Observable invocation events, for counting which external calls the
agent makes and with which arguments. -/
inductive Event where
  | search : String → Int → Event
  | llm : String → Event
deriving DecidableEq

/-- `BiologySemanticAgent.generate`, shallowly embedded.
`similarity_search` runs outside the try block: its exception propagates
(result `Except.error`).  The generation chain (prompt | llm | parsing)
runs inside `try ... except Exception: return None`, so any of its
failures yields `Except.ok none`; success yields `Except.ok (some a)`.
The second component is the trace of external invocations. -/
def generate (caps : Capabilities α) (question : String) (k : Int) :
    Except String (Option α) × List Event :=
  match caps.similarity_search question k with
  | .error e => (.error e, [.search question k])
  | .ok docs =>
    let context := format_context docs
    let prompt := build_prompt ⟨question, context, format_instructions⟩
    let events := [Event.search question k, Event.llm prompt]
    match caps.llm_invoke prompt with
    | .error _ => (.ok none, events)
    | .ok raw =>
      match caps.parse raw with
      | .error _ => (.ok none, events)
      | .ok a => (.ok (some a), events)

/-- A parsed JSON value, the possible output of the JSON parsing step
(a Python dict / list / scalar). -/
inductive Json where
  | null : Json
  | bool : Bool → Json
  | num : Int → Json
  | str : String → Json
  | arr : List Json → Json
  | obj : List (String × Json) → Json

/-- Key lookup in a JSON object body. -/
def jLookup (kvs : List (String × Json)) (key : String) : Option Json :=
  List.lookup key kvs

/-- Is this JSON value a string? -/
def isStr : Json → Bool
  | .str _ => true
  | _ => false

/-- Is this JSON value an array whose items all satisfy the check? -/
def isArrOf (check : Json → Bool) : Json → Bool
  | .arr xs => xs.all check
  | _ => false

/-- A listed property conforms when present (JSON Schema semantics:
`properties` constrains only the keys that occur). -/
def propOk (kvs : List (String × Json)) (key : String) (check : Json → Bool) : Bool :=
  match jLookup kvs key with
  | none => true
  | some v => check v

/-- A required key is present (JSON Schema `required`). -/
def reqOk (kvs : List (String × Json)) (key : String) : Bool :=
  (jLookup kvs key).isSome

/-- The `articulos` item schema of `_JSON_SCHEMA` (Agente_semantico.py
lines 34-41): an object with required string keys titulo and link. -/
def check_articulo : Json → Bool
  | .obj kvs =>
    reqOk kvs "titulo" && reqOk kvs "link" &&
    propOk kvs "titulo" isStr && propOk kvs "link" isStr
  | _ => false

/-- The `grafo` item schema of `_JSON_SCHEMA` (lines 27-53): an object
with required keys palabra (string), articulos (array of articulo
objects) and relaciones (array of strings). -/
def check_grafo_item : Json → Bool
  | .obj kvs =>
    reqOk kvs "palabra" && reqOk kvs "articulos" && reqOk kvs "relaciones" &&
    propOk kvs "palabra" isStr &&
    propOk kvs "articulos" (isArrOf check_articulo) &&
    propOk kvs "relaciones" (isArrOf isStr)
  | _ => false

/-- The `reporte` schema of `_JSON_SCHEMA` (lines 11-23): an object with
required keys resumen (string) and hallazgos (array of strings). -/
def check_reporte : Json → Bool
  | .obj kvs =>
    reqOk kvs "resumen" && reqOk kvs "hallazgos" &&
    propOk kvs "resumen" isStr &&
    propOk kvs "hallazgos" (isArrOf isStr)
  | _ => false

/-- The top level of `_JSON_SCHEMA` (lines 8-57): an object with required
keys reporte and grafo of the shapes above.  A StructuredAnswer is valid
exactly when this holds. -/
def json_schema_valid : Json → Bool
  | .obj kvs =>
    reqOk kvs "reporte" && reqOk kvs "grafo" &&
    propOk kvs "reporte" check_reporte &&
    propOk kvs "grafo" (isArrOf check_grafo_item)
  | _ => false

/-- An HTTP error response produced through `fastapi.HTTPException`. -/
structure HTTPErrorResponse where
  status_code : Nat
  detail : String
deriving DecidableEq

/-- The endpoint `get_report` of src/api.py (lines 79-94).  `ragAgent` is
`RAG_AGENT`, which is `None` when startup initialization failed.  The
outer `Except String` models an exception escaping the handler
uncaught (the agent runs outside any try block); the inner value is
either the HTTP error raised via `HTTPException` or the JSON payload of
the 200 response. -/
def get_report (ragAgent : Option (Capabilities α)) (question : String)
    (k_chunks : Int) : Except String (Except HTTPErrorResponse α) :=
  match ragAgent with
  | none => .ok (.error ⟨500, "El backend RAG no pudo inicializarse."⟩)
  | some caps =>
    match (generate caps question k_chunks).1 with
    | .error e => .error e
    | .ok none =>
      .ok (.error ⟨500, "La generación JSON falló. El LLM devolvió un formato inválido."⟩)
    | .ok (some j) => .ok (.ok j)

/-! Path and title normalization, embedded from `os.path.basename`,
`os.path.splitext` and `str.strip` as the repository uses them
(src/Scripts/Prueba_JSON.py lines 21-55 and 127-142,
src/Scripts/Procesamiento.py line 41).  The repository runs on Windows
paths, where `basename` splits on both slash and backslash; `splitext`
follows the CPython algorithm, whose separator handling is irrelevant
here because it is always applied after `basename`. -/

/-- Is this character a path separator (slash or backslash)? -/
def isSepChar (c : Char) : Bool := c = '/' || c = '\\'

/-- Leading-whitespace removal half of Python `str.strip`. -/
def stripLeft (s : List Char) : List Char := s.dropWhile Char.isWhitespace

/-- Trailing-whitespace removal half of Python `str.strip`. -/
def stripRight (s : List Char) : List Char :=
  (s.reverse.dropWhile Char.isWhitespace).reverse

/-- Python `str.strip` on a character list. -/
def pyStrip (s : List Char) : List Char := stripRight (stripLeft s)

/-- Python `str.strip` on a string. -/
def pyStripS (s : String) : String := String.mk (pyStrip s.data)

/-- `os.path.basename`: the segment after the last path separator. -/
def basenameL (s : List Char) : List Char :=
  (s.reverse.takeWhile (fun c => !isSepChar c)).reverse

/-- First component of `os.path.splitext` on a separator-free name:
the extension starts at the last dot, unless every character before that
dot is itself a dot (then nothing is split off, per CPython). -/
def splitextStem (s : List Char) : List Char :=
  let r := s.reverse
  let extR := r.takeWhile (fun c => c ≠ '.')
  if extR.length = r.length then s
  else
    let stemR := r.drop (extR.length + 1)
    if stemR.all (fun c => c = '.') then s else stemR.reverse

/-- The title normalization of `load_metadata_from_csv`
(Prueba_JSON.py lines 35-41): `strip`, then `basename`, then drop the
extension with `splitext`. -/
def normalize_title (s : String) : String :=
  String.mk (splitextStem (basenameL (pyStrip s.data)))

/-- Python dict assignment on an insertion-ordered association list:
an existing key keeps its position and takes the new value (last write
wins), a new key is appended. -/
def dictSet (m : List (String × String)) (key v : String) :
    List (String × String) :=
  if m.any (fun p => p.1 = key) then
    m.map (fun p => if p.1 = key then (key, v) else p)
  else m ++ [(key, v)]

/-- `load_metadata_from_csv` (Prueba_JSON.py lines 21-55) over the parsed
CSV rows, each row giving its title and link cell (Python
`row.get(..., '')` of `csv.DictReader`).  Rows whose cleaned title or
stripped link is empty are skipped; the I/O failure branches (file
missing, CSV error) return the empty map and are outside this pure
model. -/
def load_metadata_from_csv (rows : List (String × String)) :
    List (String × String) :=
  rows.foldl
    (fun m row =>
      let key := normalize_title row.1
      let link := pyStripS row.2
      if key ≠ "" ∧ link ≠ "" then dictSet m key link else m)
    []

/-- Modelled from the spec: `resolve(map, raw_title)` of section 4.2.
The repository builds the CitationMap (`load_metadata_from_csv`) and
normalizes lookup titles (the first_chunk metadata cleaning,
Prueba_JSON.py lines 127-142), but the map lookup itself is missing from
the sources — the agent never receives the map.  Per the spec the raw
title is normalized exactly as the map keys are and looked up, falling
back to the sentinel "unknown", never faulting. -/
def resolve (m : List (String × String)) (raw_title : String) : String :=
  (List.lookup (normalize_title raw_title) m).getD "unknown"

/-! Ingestion, embedded from src/Scripts/Procesamiento.py lines 39-73. -/

/-- Capability doubles for one ingestion step: reading a file
(`open`/`read`, may raise), the text splitter (a pure library function)
and `vector_store.add_documents` on the documents built from a file path
and its chunks (embedding plus storage, may raise). -/
structure IngestCaps where
  read_file : String → Except String String
  split_text : String → List String
  add_documents : String → List String → Except String Unit

/-- The body of the `for file_path in txt_files` loop (lines 40-69),
without its `except` handler: read the file, split it, build one
document per chunk and add them to the store when the list is nonempty.
Returns the number of documents added. -/
def process_file (caps : IngestCaps) (path : String) : Except String Nat :=
  match caps.read_file path with
  | .error e => .error e
  | .ok txt =>
    let chunks := caps.split_text txt
    if chunks.isEmpty then .ok 0
    else
      match caps.add_documents path chunks with
      | .error e => .error e
      | .ok _ => .ok chunks.length

/-- The whole batch loop with its `try ... except Exception ... continue`
handler: every file yields exactly one recorded outcome — the count of
stored documents, or the reported error — and the loop then moves to the
next file. -/
def run_batch (caps : IngestCaps) : List String → List (String × Except String Nat)
  | [] => []
  | p :: ps => (p, process_file caps p) :: run_batch caps ps

/-- A record persisted in the vector store: the id passed to the
langchain `Document` constructor, the chunk text and the two metadata
fields set at Procesamiento.py lines 56-64. -/
structure Rec where
  id : String
  page_content : String
  name : String
  source : String
deriving DecidableEq

/-- The `for chunk in text_chunks` construction loop (lines 55-65):
one record per chunk, each with a freshly drawn id — `str(uuid.uuid4())`
is modelled as reading successive values of an id supply `supply` from
index `n` on — and the uniform metadata `name`/`source` of the parent
file. -/
def mk_documents (supply : Nat → String) (n : Nat) (file_name file_path : String) :
    List String → List Rec
  | [] => []
  | c :: cs =>
    ⟨supply n, c, file_name, file_path⟩ ::
      mk_documents supply (n + 1) file_name file_path cs

/-- `Chroma.add_documents` on an explicit store state: a document whose
id already exists replaces that record (upsert), otherwise it is
appended. -/
def chroma_add (store : List Rec) : List Rec → List Rec
  | [] => store
  | d :: ds =>
    chroma_add
      (if store.any (fun r => r.id = d.id) then
        store.map (fun r => if r.id = d.id then d else r)
      else store ++ [d])
      ds

/-- Ingesting one file into the store: build the records for its chunks
(drawing ids from `supply` starting at `n`) and add them. -/
def ingest_file (supply : Nat → String) (n : Nat) (store : List Rec)
    (file_name file_path : String) (chunks : List String) : List Rec :=
  chroma_add store (mk_documents supply n file_name file_path chunks)

/-! Python call binding, for the agent construction in
src/Scripts/Prueba_JSON.py lines 98-102. -/

/-- Binding of a Python call against a parameter list (no defaults, no
star parameters — the shape of `BiologySemanticAgent.__init__` beyond
`self`): reject excess positional arguments, keyword arguments naming no
parameter, keywords doubling a positional, and missing parameters. -/
def bind_call (params : List String) (n_positional : Nat)
    (keywords : List String) : Except String Unit :=
  if params.length < n_positional then
    .error "too many positional arguments"
  else if keywords.any (fun kw => !params.contains kw) then
    .error "got an unexpected keyword argument"
  else if keywords.any (fun kw => (params.take n_positional).contains kw) then
    .error "got multiple values for argument"
  else if (params.drop n_positional).any (fun p => !keywords.contains p) then
    .error "missing a required argument"
  else .ok ()

/-- The parameters of `BiologySemanticAgent.__init__` after `self`
(Agente_semantico.py line 85). -/
def biology_agent_init_params : List String := ["vector_store", "llm"]

/-! Concrete fixtures: capability doubles with invocation traces, used to
evaluate the embedded operations on explicit inputs. -/

/-- A retrieved chunk with stored metadata, as produced by the ingestion
of Procesamiento.py. -/
def doc0 : Document :=
  ⟨[("source", "https://www.ncbi.nlm.nih.gov/pmc/articles/PMC3630201/"),
    ("name", "space-bio")], "Cats sleep 16 hours a day."⟩

/-- Double whose similarity search raises (index unreachable). -/
def capsSearchDown : Capabilities Nat :=
  ⟨fun _ _ => .error "index down", fun _ => .ok "raw", fun _ => .ok 7⟩

/-- Double whose similarity search returns zero chunks and whose LLM and
parsing succeed. -/
def capsEmptyOk : Capabilities Nat :=
  ⟨fun _ _ => .ok [], fun _ => .ok "raw", fun _ => .ok 7⟩

/-- Double that answers every search (any k) with one chunk and succeeds
downstream. -/
def capsK0 : Capabilities Nat :=
  ⟨fun _ _ => .ok [doc0], fun _ => .ok "raw", fun _ => .ok 7⟩

/-- Double whose LLM call raises (provider failure). -/
def capsModelFail : Capabilities Nat :=
  ⟨fun _ _ => .ok [doc0], fun _ => .error "503 provider unavailable", fun _ => .ok 7⟩

/-- Double whose LLM returns one raw text and whose JSON parsing raises
one error. -/
def capsBadJson1 : Capabilities Nat :=
  ⟨fun _ _ => .ok [doc0], fun _ => .ok "RAW TEXT ONE", fun _ => .error "Invalid json output"⟩

/-- Double whose LLM returns a different raw text and whose JSON parsing
raises a different error. -/
def capsBadJson2 : Capabilities Nat :=
  ⟨fun _ _ => .ok [doc0], fun _ => .ok "RAW TEXT TWO", fun _ => .error "Expecting value at line 1"⟩

/-- Double whose LLM returns the empty JSON object, which the parser
accepts: syntactically valid JSON that violates the answer schema. -/
def capsLooseJson : Capabilities Json :=
  ⟨fun _ _ => .ok [doc0], fun _ => .ok "\x7b\x7d", fun _ => .ok (Json.obj [])⟩

/-- Did the trace include an LLM invocation? -/
def invoked_llm (events : List Event) : Bool :=
  events.any fun e =>
    match e with
    | .llm _ => true
    | _ => false

/-- Ingestion double for which exactly the file bad.txt fails to read. -/
def capsIngestBad : IngestCaps :=
  ⟨fun p => if p = "bad.txt" then .error "read failure" else .ok "Cats sleep. Dogs walk.",
   fun t => [t], fun _ _ => .ok ()⟩

/-- An injective id supply standing in for `uuid.uuid4`. -/
def supplyX : Nat → String := fun i => String.mk (List.replicate i 'x')

/-- Two chunks of one parent document. -/
def chunksW : List String := ["Cats sleep 16 hours a day.", "Dogs need daily walks."]

/-! Helper lemmas shared by the claim theorems. -/

/-- Length of the record list built by the enumerate loop. -/
theorem format_records_length (n : Nat) (ds : List Document) :
    (format_records n ds).length = ds.length := by
  induction ds generalizing n with
  | nil => rfl
  | cons d ds ih => simp [format_records, ih]

/-- The record at position i of the enumerate loop started at n is the
record of the document at position i, displayed at rank n + i + 1. -/
theorem format_records_get? (n : Nat) (ds : List Document) (i : Nat) :
    (format_records n ds).get? i =
      (ds.get? i).map (fun d => mk_record (n + i + 1) d) := by
  induction ds generalizing n i with
  | nil => simp [format_records]
  | cons d ds ih =>
    cases i with
    | zero => simp [format_records]
    | succ i =>
      have h : n + 1 + i + 1 = n + (i + 1) + 1 := by omega
      simp only [format_records, List.get?_cons_succ, ih (n + 1) i, h]

/-- The batch loop distributes over concatenation of file lists. -/
theorem run_batch_append (caps : IngestCaps) (l1 l2 : List String) :
    run_batch caps (l1 ++ l2) = run_batch caps l1 ++ run_batch caps l2 := by
  induction l1 with
  | nil => rfl
  | cons p ps ih => simp [run_batch, ih]

/-- C9: the Context Assembler is deterministic — two runs of
`_format_context` on identical input produce identical output strings —
and the formatted records appear in exactly the order of the retrieval
result, the record at position i being the record of the i-th retrieved
chunk displayed with rank i + 1. -/
theorem format_context_deterministic_and_ordered (docs docs2 : List Document)
    (h : docs = docs2) :
    format_context docs = format_context docs2
    ∧ (format_records 0 docs).length = docs.length
    ∧ ∀ i, (format_records 0 docs).get? i =
        (docs.get? i).map (fun d => mk_record (i + 1) d) := by
  refine ⟨by rw [h], format_records_length 0 docs, fun i => ?_⟩
  have := format_records_get? 0 docs i
  simpa using this

/-- Witness for C9 at a concrete one-chunk retrieval result. -/
theorem format_context_deterministic_and_ordered_witness :
    format_context [doc0] = format_context [doc0]
    ∧ (format_records 0 [doc0]).length = ([doc0] : List Document).length
    ∧ (format_records 0 [doc0]).get? 0 =
        (([doc0] : List Document).get? 0).map (fun d => mk_record (0 + 1) d) :=
  ⟨(format_context_deterministic_and_ordered [doc0] [doc0] rfl).1,
   (format_context_deterministic_and_ordered [doc0] [doc0] rfl).2.1,
   (format_context_deterministic_and_ordered [doc0] [doc0] rfl).2.2 0⟩

/-- C7: a failure while processing one document of a batch is recorded
as the reported outcome of exactly that document, and the batch goes on:
the files before and after it are processed exactly as they would be on
their own — a single failing document never aborts the batch. -/
theorem ingest_single_failure_isolated (caps : IngestCaps)
    (pre rest : List String) (f : String) (e : String)
    (h : process_file caps f = .error e) :
    run_batch caps (pre ++ f :: rest) =
      run_batch caps pre ++ (f, Except.error e) :: run_batch caps rest
    ∧ (run_batch caps (pre ++ f :: rest)).length =
        pre.length + 1 + rest.length := by
  have hsplit : run_batch caps (pre ++ f :: rest) =
      run_batch caps pre ++ (f, process_file caps f) :: run_batch caps rest := by
    rw [run_batch_append]
    rfl
  rw [h] at hsplit
  refine ⟨hsplit, ?_⟩
  rw [hsplit]
  have hlen : ∀ l : List String, (run_batch caps l).length = l.length := by
    intro l
    induction l with
    | nil => rfl
    | cons p ps ih => simp [run_batch, ih]
  simp [hlen]
  omega

/-- Witness for C7: bad.txt fails to read between two good files. -/
theorem ingest_single_failure_isolated_witness :
    run_batch capsIngestBad (["a.txt"] ++ "bad.txt" :: ["b.txt"]) =
      run_batch capsIngestBad ["a.txt"] ++
        ("bad.txt", Except.error "read failure") :: run_batch capsIngestBad ["b.txt"]
    ∧ (run_batch capsIngestBad (["a.txt"] ++ "bad.txt" :: ["b.txt"])).length =
        (["a.txt"] : List String).length + 1 + (["b.txt"] : List String).length :=
  ingest_single_failure_isolated capsIngestBad ["a.txt"] ["b.txt"] "bad.txt"
    "read failure" rfl

/-- C10: `generate` returns the parsed dict or None in every case where
the generation chain runs — an exception from the similarity search
itself is not caught and propagates unchanged, while both a provider
(LLM) failure and a parsing failure are mapped to the single value None,
indistinguishable to the caller. -/
theorem generate_none_on_chain_failure {α : Type} (caps : Capabilities α)
    (q : String) (k : Int) :
    (∀ e, caps.similarity_search q k = .error e →
      (generate caps q k).1 = .error e)
    ∧ (∀ docs e, caps.similarity_search q k = .ok docs →
        caps.llm_invoke
          (build_prompt ⟨q, format_context docs, format_instructions⟩) = .error e →
        (generate caps q k).1 = .ok none)
    ∧ (∀ docs raw e, caps.similarity_search q k = .ok docs →
        caps.llm_invoke
          (build_prompt ⟨q, format_context docs, format_instructions⟩) = .ok raw →
        caps.parse raw = .error e →
        (generate caps q k).1 = .ok none)
    ∧ (∀ docs raw a, caps.similarity_search q k = .ok docs →
        caps.llm_invoke
          (build_prompt ⟨q, format_context docs, format_instructions⟩) = .ok raw →
        caps.parse raw = .ok a →
        (generate caps q k).1 = .ok (some a)) := by
  refine ⟨fun e he => ?_, fun docs e hs hl => ?_,
    fun docs raw e hs hl hp => ?_, fun docs raw a hs hl hp => ?_⟩ <;>
    simp [generate, *]

/-- Witness for C10: the four outcomes at concrete capability doubles —
a search fault propagates, a provider fault and a parse fault both give
None, and a parsed dict comes back as is. -/
theorem generate_none_on_chain_failure_witness :
    (generate capsSearchDown "q" 5).1 = .error "index down"
    ∧ (generate capsModelFail "q" 5).1 = .ok none
    ∧ (generate capsBadJson1 "q" 5).1 = .ok none
    ∧ (generate capsK0 "q" 5).1 = .ok (some 7) :=
  ⟨(generate_none_on_chain_failure capsSearchDown "q" 5).1 "index down" rfl,
   (generate_none_on_chain_failure capsModelFail "q" 5).2.1 [doc0]
     "503 provider unavailable" rfl rfl,
   (generate_none_on_chain_failure capsBadJson1 "q" 5).2.2.1 [doc0]
     "RAW TEXT ONE" "Invalid json output" rfl rfl rfl,
   (generate_none_on_chain_failure capsK0 "q" 5).2.2.2 [doc0] "raw" 7
     rfl rfl rfl⟩

/-- C1 counterexample: with a capability double whose retrieval returns
zero chunks, `generate` still invokes the LLM (an llm event is in the
trace) and returns the ordinary parsed result — no terminal no-context
failure distinct from the invalid outcome exists. -/
theorem generate_empty_context_still_prompts :
    capsEmptyOk.similarity_search "q" 5 = .ok []
    ∧ invoked_llm (generate capsEmptyOk "q" 5).2 = true
    ∧ (generate capsEmptyOk "q" 5).1 = .ok (some 7) :=
  ⟨rfl, rfl, rfl⟩

/-- C1 amended: when retrieval returns zero chunks, `generate` does not
stop: it assembles the empty context block and invokes the LLM exactly
once on the prompt built over the empty context, then returns the
ordinary dict-or-None outcome of the chain. -/
theorem generate_empty_context_behavior {α : Type} (caps : Capabilities α)
    (q : String) (k : Int) (h : caps.similarity_search q k = .ok []) :
    format_context [] = ""
    ∧ (generate caps q k).2 =
        [Event.search q k, Event.llm (build_prompt ⟨q, "", format_instructions⟩)] := by
  have hctx : format_context ([] : List Document) = "" := rfl
  refine ⟨hctx, ?_⟩
  simp only [generate, h, hctx]
  cases hl : caps.llm_invoke (build_prompt ⟨q, "", format_instructions⟩) with
  | error e => simp [hl]
  | ok raw =>
    cases hp : caps.parse raw with
    | error e => simp [hl, hp]
    | ok a => simp [hl, hp]

/-- Witness for C1 amended at the zero-chunk double. -/
theorem generate_empty_context_behavior_witness :
    format_context [] = ""
    ∧ (generate capsEmptyOk "q" 5).2 =
        [Event.search "q" 5, Event.llm (build_prompt ⟨"q", "", format_instructions⟩)] :=
  generate_empty_context_behavior capsEmptyOk "q" 5 rfl

/-- C2 counterexample: two parse failures with different raw model texts
and different errors produce the very same result, the bare None — the
returned failure carries neither the raw text nor the validation error —
and a syntactically valid but schema-violating model output (the empty
object) is returned as a success, so a partially-populated answer does
cross the boundary. -/
theorem generate_invalid_output_counterexample :
    (generate capsBadJson1 "q" 5).1 = .ok none
    ∧ (generate capsBadJson2 "q" 5).1 = .ok none
    ∧ (generate capsBadJson1 "q" 5).1 = (generate capsBadJson2 "q" 5).1
    ∧ (generate capsLooseJson "q" 5).1 = .ok (some (Json.obj []))
    ∧ json_schema_valid (Json.obj []) = false :=
  ⟨rfl, rfl, rfl, rfl, rfl⟩

/-- C2 amended: when the JSON parsing of the model response fails,
`generate` catches the exception and returns None — one failure value,
identical for every raw text and every error, carrying neither — and
never lets the fault escape; when parsing succeeds the parsed dict is
returned exactly as produced, with no schema validation applied. -/
theorem generate_parse_outcome {α : Type} (caps : Capabilities α)
    (q : String) (k : Int) (docs : List Document) (raw : String)
    (hs : caps.similarity_search q k = .ok docs)
    (hl : caps.llm_invoke
      (build_prompt ⟨q, format_context docs, format_instructions⟩) = .ok raw) :
    (∀ e, caps.parse raw = .error e → (generate caps q k).1 = .ok none)
    ∧ (∀ a, caps.parse raw = .ok a → (generate caps q k).1 = .ok (some a)) := by
  refine ⟨fun e hp => ?_, fun a hp => ?_⟩ <;> simp [generate, hs, hl, hp]

/-- Witness for C2 amended at the failing-parse and loose-parse doubles. -/
theorem generate_parse_outcome_witness :
    (generate capsBadJson1 "q" 5).1 = .ok none
    ∧ (generate capsLooseJson "q" 5).1 = .ok (some (Json.obj [])) :=
  ⟨(generate_parse_outcome capsBadJson1 "q" 5 [doc0] "RAW TEXT ONE" rfl rfl).1
      "Invalid json output" rfl,
   (generate_parse_outcome capsLooseJson "q" 5 [doc0] "\x7b\x7d" rfl rfl).2
      (Json.obj []) rfl⟩

/-- C6 counterexample: called with k = 0, `generate` does not fail fast:
the external similarity index is consulted (first trace event, carrying
k = 0 unchanged) and the call completes normally — no ConfigurationError
exists in the code. -/
theorem generate_k_zero_proceeds :
    (generate capsK0 "q" 0).2.head? = some (Event.search "q" 0)
    ∧ (generate capsK0 "q" 0).1 = .ok (some 7) :=
  ⟨rfl, rfl⟩

/-- C6 amended: `generate` performs no validation of k whatsoever — for
every k, k ≤ 0 included, the query is forwarded to the external
similarity index with that very k as the first external call. -/
theorem generate_forwards_k_unvalidated {α : Type} (caps : Capabilities α)
    (q : String) (k : Int) (_hk : k ≤ 0) :
    (generate caps q k).2.head? = some (Event.search q k) := by
  unfold generate
  cases h : caps.similarity_search q k with
  | error e => simp [h]
  | ok docs =>
    cases hl : caps.llm_invoke
        (build_prompt ⟨q, format_context docs, format_instructions⟩) with
    | error e => simp [h, hl]
    | ok raw => cases hp : caps.parse raw <;> simp [h, hl, hp]

/-- Witness for C6 amended at k = 0. -/
theorem generate_forwards_k_unvalidated_witness :
    (generate capsK0 "q" 0).2.head? = some (Event.search "q" 0) :=
  generate_forwards_k_unvalidated capsK0 "q" 0 (by decide)

/-- C4 counterexample: a provider (model) failure and an invalid model
output are served by the endpoint as the very same response — status 500
with an identical detail string, no cause discriminator — and an
uninitialized backend is a 500 as well. -/
theorem get_report_500_counterexample :
    get_report (some capsModelFail) "q" 5 =
      .ok (.error ⟨500, "La generación JSON falló. El LLM devolvió un formato inválido."⟩)
    ∧ get_report (some capsBadJson1) "q" 5 =
        .ok (.error ⟨500, "La generación JSON falló. El LLM devolvió un formato inválido."⟩)
    ∧ get_report (some capsModelFail) "q" 5 = get_report (some capsBadJson1) "q" 5
    ∧ get_report (none : Option (Capabilities Nat)) "q" 5 =
        .ok (.error ⟨500, "El backend RAG no pudo inicializarse."⟩) :=
  ⟨rfl, rfl, rfl, rfl⟩

/-- C4 amended: every HTTP failure the endpoint produces has status 500;
no failure cause receives a distinct status code, and model failure and
invalid model output share even the same detail string. -/
theorem get_report_failures_all_500 {α : Type}
    (agent : Option (Capabilities α)) (q : String) (k : Int)
    (err : HTTPErrorResponse) (h : get_report agent q k = .ok (.error err)) :
    err.status_code = 500 := by
  cases agent with
  | none =>
    simp only [get_report] at h
    cases h
    rfl
  | some caps =>
    simp only [get_report] at h
    cases hg : (generate caps q k).1 with
    | error e => rw [hg] at h; cases h
    | ok o =>
      cases o with
      | none => rw [hg] at h; cases h; rfl
      | some j => rw [hg] at h; cases h

/-- Witness for C4 amended: the model-failure double yields a 500. -/
theorem get_report_failures_all_500_witness :
    (HTTPErrorResponse.mk 500
      "La generación JSON falló. El LLM devolvió un formato inválido.").status_code = 500 :=
  get_report_failures_all_500 (some capsModelFail) "q" 5
    ⟨500, "La generación JSON falló. El LLM devolvió un formato inválido."⟩ rfl

/-- C3: the repository intends citation links to come from the CSV
CitationMap — its own test driver passes the map into the agent — but
the constructor of `BiologySemanticAgent` accepts no such parameter, so
that call fails to bind (a TypeError in Python), and `_format_context`
takes the displayed link from the stored metadata of the chunk itself:
for a chunk whose stored source is S, the formatted record displays S,
no map being consulted (the function receives none). -/
theorem agent_link_map_rejected_link_from_metadata :
    bind_call biology_agent_init_params 2 ["article_link_map"] =
      .error "got an unexpected keyword argument"
    ∧ format_context
        [⟨[("source", "S-FROM-CHUNK-METADATA"), ("name", "space-bio")], "body"⟩] =
      "### Fragmento #1\n**Nombre:** space-bio\n**Fuente/Link:** S-FROM-CHUNK-METADATA\n**Contenido:**\nbody\n" :=
  ⟨rfl, rfl⟩

/-- Every record built for one file is the chunk at some position j,
carrying the parent metadata and the id drawn at offset j. -/
theorem mk_documents_mem (supply : Nat → String) (nm p : String) :
    ∀ (cs : List String) (n : Nat) (r : Rec),
      r ∈ mk_documents supply n nm p cs →
      ∃ j, j < cs.length ∧ r = ⟨supply (n + j), r.page_content, nm, p⟩ := by
  intro cs
  induction cs with
  | nil => intro n r h; cases h
  | cons c cs ih =>
    intro n r h
    rcases List.mem_cons.mp h with h | h
    · subst h
      exact ⟨0, by simp, by simp⟩
    · obtain ⟨j, hj, hr⟩ := ih (n + 1) r h
      refine ⟨j + 1, by simpa using Nat.succ_lt_succ hj, ?_⟩
      rw [hr]
      have : n + 1 + j = n + (j + 1) := by omega
      rw [this]

/-- The record at position i of the construction loop started at n. -/
theorem mk_documents_get? (supply : Nat → String) (nm p : String) :
    ∀ (cs : List String) (n i : Nat),
      (mk_documents supply n nm p cs).get? i =
        (cs.get? i).map (fun c => Rec.mk (supply (n + i)) c nm p) := by
  intro cs
  induction cs with
  | nil => intro n i; simp [mk_documents]
  | cons c cs ih =>
    intro n i
    cases i with
    | zero => simp [mk_documents]
    | succ i =>
      have h : n + 1 + i = n + (i + 1) := by omega
      simp only [mk_documents, List.get?_cons_succ, ih (n + 1) i, h]

/-- Adding the freshly built records of one file to a store none of
whose ids will ever be drawn again appends them: the upsert branch of
the store is never taken, so no existing record is overwritten. -/
theorem chroma_add_fresh (supply : Nat → String)
    (hinj : Function.Injective supply) (nm p : String) :
    ∀ (cs : List String) (n : Nat) (store : List Rec),
      (∀ r ∈ store, ∀ i, n ≤ i → r.id ≠ supply i) →
      chroma_add store (mk_documents supply n nm p cs) =
        store ++ mk_documents supply n nm p cs := by
  intro cs
  induction cs with
  | nil => intro n store _; simp [mk_documents, chroma_add]
  | cons c cs ih =>
    intro n store hfresh
    have hany : (store.any fun r => r.id = supply n) = false := by
      simp only [List.any_eq_false, decide_eq_true_eq]
      intro r hr
      exact hfresh r hr n (Nat.le_refl n)
    have hfresh2 : ∀ r ∈ store ++ [Rec.mk (supply n) c nm p],
        ∀ i, n + 1 ≤ i → r.id ≠ supply i := by
      intro r hr i hi
      rcases List.mem_append.mp hr with hr | hr
      · exact hfresh r hr i (by omega)
      · have : r = Rec.mk (supply n) c nm p := by simpa using hr
        subst this
        intro hcontra
        have := hinj hcontra
        omega
    calc chroma_add store (mk_documents supply n nm p (c :: cs))
        = chroma_add (store ++ [Rec.mk (supply n) c nm p])
            (mk_documents supply (n + 1) nm p cs) := by
          simp only [mk_documents, chroma_add, hany, Bool.false_eq_true, if_false]
      _ = (store ++ [Rec.mk (supply n) c nm p]) ++
            mk_documents supply (n + 1) nm p cs := ih (n + 1) _ hfresh2
      _ = store ++ mk_documents supply n nm p (c :: cs) := by
          simp [mk_documents]

/-- C8: every chunk record of one ingested document carries the
identical parent metadata (name and source); the records are persisted
with freshly drawn ids, so adding them appends and never overwrites an
existing record; and re-ingesting the same document appends a second
batch of records — for every chunk, two records with the same text and
metadata but different ids end up stored. -/
theorem ingestion_uniform_metadata_fresh_ids (supply : Nat → String)
    (hinj : Function.Injective supply) (n : Nat) (store : List Rec)
    (hfresh : ∀ r ∈ store, ∀ i, n ≤ i → r.id ≠ supply i)
    (nm p : String) (chunks : List String) :
    (∀ r ∈ mk_documents supply n nm p chunks, r.name = nm ∧ r.source = p)
    ∧ ingest_file supply n store nm p chunks =
        store ++ mk_documents supply n nm p chunks
    ∧ ingest_file supply (n + chunks.length)
        (ingest_file supply n store nm p chunks) nm p chunks =
        store ++ mk_documents supply n nm p chunks
          ++ mk_documents supply (n + chunks.length) nm p chunks
    ∧ (∀ c ∈ chunks, ∃ r1 ∈ mk_documents supply n nm p chunks,
        ∃ r2 ∈ mk_documents supply (n + chunks.length) nm p chunks,
        r1.id ≠ r2.id ∧ r1.page_content = c ∧ r2.page_content = c) := by
  have huni : ∀ r ∈ mk_documents supply n nm p chunks, r.name = nm ∧ r.source = p := by
    intro r hr
    obtain ⟨j, _, hrj⟩ := mk_documents_mem supply nm p chunks n r hr
    rw [hrj]
    exact ⟨rfl, rfl⟩
  have hingest : ingest_file supply n store nm p chunks =
      store ++ mk_documents supply n nm p chunks :=
    chroma_add_fresh supply hinj nm p chunks n store hfresh
  have hfresh2 : ∀ r ∈ store ++ mk_documents supply n nm p chunks,
      ∀ i, n + chunks.length ≤ i → r.id ≠ supply i := by
    intro r hr i hi
    rcases List.mem_append.mp hr with hr | hr
    · exact hfresh r hr i (by omega)
    · obtain ⟨j, hj, hrj⟩ := mk_documents_mem supply nm p chunks n r hr
      rw [hrj]
      intro hcontra
      have := hinj hcontra
      omega
  have hingest2 : ingest_file supply (n + chunks.length)
      (ingest_file supply n store nm p chunks) nm p chunks =
      store ++ mk_documents supply n nm p chunks
        ++ mk_documents supply (n + chunks.length) nm p chunks := by
    rw [hingest]
    exact chroma_add_fresh supply hinj nm p chunks (n + chunks.length) _ hfresh2
  refine ⟨huni, hingest, hingest2, ?_⟩
  intro c hc
  obtain ⟨j, hjc⟩ := List.get?_of_mem hc
  have hjlt : j < chunks.length := by
    rcases List.get?_eq_some.mp hjc with ⟨h, _⟩
    exact h
  have h1 : Rec.mk (supply (n + j)) c nm p ∈ mk_documents supply n nm p chunks := by
    apply List.get?_mem (n := j)
    rw [mk_documents_get? supply nm p chunks n j, hjc]
    rfl
  have h2 : Rec.mk (supply (n + chunks.length + j)) c nm p ∈
      mk_documents supply (n + chunks.length) nm p chunks := by
    apply List.get?_mem (n := j)
    rw [mk_documents_get? supply nm p chunks (n + chunks.length) j, hjc]
    rfl
  refine ⟨_, h1, _, h2, ?_, rfl, rfl⟩
  intro hcontra
  have := hinj hcontra
  omega

/-- Witness for C8: two chunks of one document, ids drawn from an
injective supply, over the empty store. -/
theorem ingestion_uniform_metadata_fresh_ids_witness :
    ingest_file supplyX 0 [] "space-bio" "docs/space-bio.txt" chunksW =
      [] ++ mk_documents supplyX 0 "space-bio" "docs/space-bio.txt" chunksW
    ∧ ingest_file supplyX (0 + chunksW.length)
        (ingest_file supplyX 0 [] "space-bio" "docs/space-bio.txt" chunksW)
        "space-bio" "docs/space-bio.txt" chunksW =
        [] ++ mk_documents supplyX 0 "space-bio" "docs/space-bio.txt" chunksW
          ++ mk_documents supplyX (0 + chunksW.length) "space-bio" "docs/space-bio.txt" chunksW := by
  have hinj : Function.Injective supplyX := by
    intro a b h
    have := congrArg (fun s => s.data.length) h
    simpa [supplyX] using this
  have hfresh : ∀ r ∈ ([] : List Rec), ∀ i, 0 ≤ i → r.id ≠ supplyX i := by
    intro r hr
    cases hr
  exact ⟨(ingestion_uniform_metadata_fresh_ids supplyX hinj 0 [] hfresh
      "space-bio" "docs/space-bio.txt" chunksW).2.1,
    (ingestion_uniform_metadata_fresh_ids supplyX hinj 0 [] hfresh
      "space-bio" "docs/space-bio.txt" chunksW).2.2.1⟩

/-- Distribution of dropWhile over an append of character lists. -/
theorem dropWhile_append_char (P : Char → Bool) (a b : List Char) :
    List.dropWhile P (a ++ b) =
      if (List.dropWhile P a).isEmpty then List.dropWhile P b
      else List.dropWhile P a ++ b := by
  induction a with
  | nil => simp
  | cons x xs ih =>
    by_cases h : P x
    · simpa [List.dropWhile_cons, h] using ih
    · simp [List.dropWhile_cons, h]

/-- A list untouched by dropWhile keeps any extension untouched too. -/
theorem dropWhile_eq_self_append (P : Char → Bool) (a b : List Char)
    (ha : List.dropWhile P a = a) (hne : a ≠ []) :
    List.dropWhile P (a ++ b) = a ++ b := by
  rw [dropWhile_append_char, ha]
  cases a with
  | nil => exact absurd rfl hne
  | cons x xs => simp

/-- takeWhile passes through a block of satisfying characters. -/
theorem takeWhile_append_all (P : Char → Bool) (a b : List Char)
    (h : ∀ c ∈ a, P c = true) :
    List.takeWhile P (a ++ b) = a ++ List.takeWhile P b := by
  induction a with
  | nil => simp
  | cons x xs ih =>
    have hx : P x = true := h x (by simp)
    simp [List.takeWhile_cons, hx, ih fun c hc => h c (by simp [hc])]

/-- takeWhile keeps a list all of whose characters satisfy it. -/
theorem takeWhile_eq_self_char (P : Char → Bool) (a : List Char)
    (h : ∀ c ∈ a, P c = true) :
    List.takeWhile P a = a := by
  simpa using takeWhile_append_all P a [] h

/-- A path separator is not whitespace. -/
theorem isSepChar_not_whitespace (c : Char) (h : isSepChar c = true) :
    Char.isWhitespace c = false := by
  have h2 : c = '/' ∨ c = '\\' := by
    simpa [isSepChar] using h
  rcases h2 with h1 | h1 <;> subst h1 <;> decide

/-- Python strip of a string with untouched left and right edges. -/
theorem pyStrip_eq_self (t : List Char)
    (hL : List.dropWhile Char.isWhitespace t = t)
    (hR : List.dropWhile Char.isWhitespace t.reverse = t.reverse) :
    pyStrip t = t := by
  simp [pyStrip, stripLeft, stripRight, hL, hR]

/-- Stripping a path whose final segment has clean edges keeps the
separator and everything after it. -/
theorem pyStrip_sep_segment (p t : List Char) (sep : Char)
    (hsep : isSepChar sep = true)
    (hR : List.dropWhile Char.isWhitespace t.reverse = t.reverse)
    (hne : t ≠ []) :
    pyStrip (p ++ sep :: t) =
      List.dropWhile Char.isWhitespace p ++ sep :: t := by
  have hws := isSepChar_not_whitespace sep hsep
  have hleft : stripLeft (p ++ sep :: t) =
      List.dropWhile Char.isWhitespace p ++ sep :: t := by
    unfold stripLeft
    rw [dropWhile_append_char]
    by_cases h : (List.dropWhile Char.isWhitespace p).isEmpty
    · rw [if_pos h]
      have hp : List.dropWhile Char.isWhitespace p = [] := by
        simpa [List.isEmpty_iff] using h
      simp [List.dropWhile_cons, hws, hp]
    · rw [if_neg h]
  have hrev : (List.dropWhile Char.isWhitespace p ++ sep :: t).reverse =
      t.reverse ++ sep :: (List.dropWhile Char.isWhitespace p).reverse := by
    simp
  have hnerev : t.reverse ≠ [] := by
    simpa using hne
  unfold pyStrip
  rw [hleft]
  unfold stripRight
  rw [hrev, dropWhile_eq_self_append Char.isWhitespace t.reverse _ hR hnerev]
  simp

/-- basename keeps exactly the segment after the last separator. -/
theorem basenameL_sep_segment (x t : List Char) (sep : Char)
    (hsep : isSepChar sep = true)
    (ht : ∀ c ∈ t, isSepChar c = false) :
    basenameL (x ++ sep :: t) = t := by
  unfold basenameL
  have hrev : (x ++ sep :: t).reverse = t.reverse ++ sep :: x.reverse := by
    simp
  rw [hrev, takeWhile_append_all _ _ _ (by
    intro c hc
    have : c ∈ t := List.mem_reverse.mp hc
    simp [ht c this])]
  simp [List.takeWhile_cons, hsep]

/-- basename of a separator-free name is the name itself. -/
theorem basenameL_eq_self (t : List Char)
    (ht : ∀ c ∈ t, isSepChar c = false) :
    basenameL t = t := by
  unfold basenameL
  rw [takeWhile_eq_self_char _ _ (by
    intro c hc
    have : c ∈ t := List.mem_reverse.mp hc
    simp [ht c this])]
  simp

/-- splitext leaves a dot-free name unchanged. -/
theorem splitextStem_eq_self (t : List Char) (ht : ∀ c ∈ t, c ≠ '.') :
    splitextStem t = t := by
  have hext : List.takeWhile (fun c => decide (c ≠ '.')) t.reverse = t.reverse := by
    apply takeWhile_eq_self_char
    intro c hc
    have hct : c ∈ t := List.mem_reverse.mp hc
    simp [ht c hct]
  simp only [splitextStem, hext]
  simp

/-- splitext drops exactly one trailing dot-free extension from a
dot-free nonempty stem. -/
theorem splitextStem_drop_ext (t e : List Char)
    (htDot : ∀ c ∈ t, c ≠ '.') (hne : t ≠ [])
    (heDot : ∀ c ∈ e, c ≠ '.') :
    splitextStem (t ++ '.' :: e) = t := by
  have hrev : (t ++ '.' :: e).reverse = e.reverse ++ '.' :: t.reverse := by
    simp
  have hext : List.takeWhile (fun c => decide (c ≠ '.'))
      (e.reverse ++ '.' :: t.reverse) = e.reverse := by
    rw [takeWhile_append_all _ _ _ (by
      intro c hc
      have hce : c ∈ e := List.mem_reverse.mp hc
      simp [heDot c hce])]
    simp [List.takeWhile_cons]
  have hlen : ¬ e.reverse.length = (e.reverse ++ '.' :: t.reverse).length := by
    simp
  have hdrop : (e.reverse ++ '.' :: t.reverse).drop (e.reverse.length + 1) =
      t.reverse := by
    have hsplit : e.reverse ++ '.' :: t.reverse = (e.reverse ++ ['.']) ++ t.reverse := by
      simp
    rw [hsplit]
    have hlen2 : e.reverse.length + 1 = (e.reverse ++ ['.']).length := by
      simp
    rw [hlen2, List.drop_left]
  have hnotall : (t.reverse.all fun c => decide (c = '.')) = false := by
    cases t with
    | nil => exact absurd rfl hne
    | cons c cs =>
      apply List.all_eq_false.mpr
      refine ⟨c, by simp, by simp [htDot c (by simp)]⟩
  simp only [splitextStem, hrev, hext]
  rw [if_neg hlen, hdrop]
  rw [if_neg (by simp [hnotall])]
  simp

/-- Normalization is insensitive to a path prefix before a separator,
when the final segment is separator-free, nonempty and has clean
whitespace edges. -/
theorem normalize_title_sep (p t : List Char) (sep : Char)
    (hsep : isSepChar sep = true)
    (hL : List.dropWhile Char.isWhitespace t = t)
    (hR : List.dropWhile Char.isWhitespace t.reverse = t.reverse)
    (ht : ∀ c ∈ t, isSepChar c = false) (hne : t ≠ []) :
    normalize_title (String.mk (p ++ sep :: t)) =
      normalize_title (String.mk t) := by
  unfold normalize_title
  have h1 : pyStrip (p ++ sep :: t) =
      List.dropWhile Char.isWhitespace p ++ sep :: t :=
    pyStrip_sep_segment p t sep hsep hR hne
  have h2 : basenameL (List.dropWhile Char.isWhitespace p ++ sep :: t) = t :=
    basenameL_sep_segment _ t sep hsep ht
  have h3 : pyStrip t = t := pyStrip_eq_self t hL hR
  have h4 : basenameL t = t := basenameL_eq_self t ht
  simp only [h1, h2, h3, h4]

/-- Normalization is insensitive to one trailing dot-free extension on a
dot-free, separator-free, nonempty stem with clean whitespace edges. -/
theorem normalize_title_ext (t e : List Char)
    (hLt : List.dropWhile Char.isWhitespace t = t)
    (hRt : List.dropWhile Char.isWhitespace t.reverse = t.reverse)
    (htSep : ∀ c ∈ t, isSepChar c = false)
    (htDot : ∀ c ∈ t, c ≠ '.') (hne : t ≠ [])
    (hRe : List.dropWhile Char.isWhitespace e.reverse = e.reverse)
    (heSep : ∀ c ∈ e, isSepChar c = false)
    (heDot : ∀ c ∈ e, c ≠ '.') (hene : e ≠ []) :
    normalize_title (String.mk (t ++ '.' :: e)) =
      normalize_title (String.mk t) := by
  unfold normalize_title
  have hL1 : List.dropWhile Char.isWhitespace (t ++ '.' :: e) = t ++ '.' :: e :=
    dropWhile_eq_self_append _ t _ hLt hne
  have hR1 : List.dropWhile Char.isWhitespace (t ++ '.' :: e).reverse =
      (t ++ '.' :: e).reverse := by
    have hrev : (t ++ '.' :: e).reverse = e.reverse ++ '.' :: t.reverse := by
      simp
    rw [hrev]
    exact dropWhile_eq_self_append _ e.reverse _ hRe (by simpa using hene)
  have h1 : pyStrip (t ++ '.' :: e) = t ++ '.' :: e :=
    pyStrip_eq_self _ hL1 hR1
  have h2 : basenameL (t ++ '.' :: e) = t ++ '.' :: e := by
    apply basenameL_eq_self
    intro c hc
    rcases List.mem_append.mp hc with hc | hc
    · exact htSep c hc
    · rcases List.mem_cons.mp hc with hc | hc
      · subst hc; decide
      · exact heSep c hc
  have h3 : splitextStem (t ++ '.' :: e) = t :=
    splitextStem_drop_ext t e htDot hne heDot
  have h4 : pyStrip t = t := pyStrip_eq_self t hLt hRt
  have h5 : basenameL t = t := basenameL_eq_self t htSep
  have h6 : splitextStem t = t := splitextStem_eq_self t htDot
  simp only [h1, h2, h3, h4, h5, h6]

/-- C5 counterexample: resolution is not insensitive to file extensions.
The CSV row titled space-bio.tar.gz is keyed space-bio.tar (only the
last extension is stripped), so the raw title space-bio.tar.gz resolves
to the stored link while the very same title without its .gz extension
resolves to the sentinel — adding or removing an extension changes the
result when the remaining stem still contains a dot. -/
theorem resolve_extension_sensitive :
    resolve (load_metadata_from_csv [("space-bio.tar.gz", "http://x/y")])
      "space-bio.tar.gz" = "http://x/y"
    ∧ resolve (load_metadata_from_csv [("space-bio.tar.gz", "http://x/y")])
      "space-bio.tar" = "unknown" := by
  constructor <;> rfl

/-- C5 amended: resolution normalizes only by trimming whitespace, then
stripping the path component, then stripping the last extension; it is
insensitive to a path prefix whenever the bare title is nonempty,
separator-free and has no surrounding whitespace, and insensitive to a
single trailing extension whenever title stem and extension are in
addition dot-free; a title whose normal form is not in the map always
yields the sentinel, never a fault. -/
theorem resolve_normalization_behavior :
    (∀ (m : List (String × String)) (t : String),
      List.lookup (normalize_title t) m = none → resolve m t = "unknown")
    ∧ (∀ (m : List (String × String)) (p t : List Char) (sep : Char),
        isSepChar sep = true →
        List.dropWhile Char.isWhitespace t = t →
        List.dropWhile Char.isWhitespace t.reverse = t.reverse →
        (∀ c ∈ t, isSepChar c = false) → t ≠ [] →
        resolve m (String.mk (p ++ sep :: t)) = resolve m (String.mk t))
    ∧ (∀ (m : List (String × String)) (t e : List Char),
        List.dropWhile Char.isWhitespace t = t →
        List.dropWhile Char.isWhitespace t.reverse = t.reverse →
        (∀ c ∈ t, isSepChar c = false) → (∀ c ∈ t, c ≠ '.') → t ≠ [] →
        List.dropWhile Char.isWhitespace e.reverse = e.reverse →
        (∀ c ∈ e, isSepChar c = false) → (∀ c ∈ e, c ≠ '.') → e ≠ [] →
        resolve m (String.mk (t ++ '.' :: e)) = resolve m (String.mk t)) := by
  refine ⟨fun m t h => ?_, fun m p t sep hsep hL hR ht hne => ?_,
    fun m t e hLt hRt htSep htDot hne hRe heSep heDot hene => ?_⟩
  · simp [resolve, h]
  · simp [resolve, normalize_title_sep p t sep hsep hL hR ht hne]
  · simp [resolve, normalize_title_ext t e hLt hRt htSep htDot hne hRe heSep heDot hene]

/-- Witness for C5 amended: the spec scenario — the CSV row titled
docs/space-bio.txt resolves for the raw titles docs/space-bio,
space-bio.txt and space-bio alike, and an unmapped title yields the
sentinel. -/
theorem resolve_normalization_behavior_witness :
    resolve (load_metadata_from_csv [("docs/space-bio.txt", "http://x/y")])
        (String.mk ("docs".data ++ '/' :: "space-bio".data)) =
      resolve (load_metadata_from_csv [("docs/space-bio.txt", "http://x/y")])
        (String.mk "space-bio".data)
    ∧ resolve (load_metadata_from_csv [("docs/space-bio.txt", "http://x/y")])
        (String.mk ("space-bio".data ++ '.' :: "txt".data)) =
      resolve (load_metadata_from_csv [("docs/space-bio.txt", "http://x/y")])
        (String.mk "space-bio".data)
    ∧ resolve [] "mystery-title" = "unknown" :=
  ⟨resolve_normalization_behavior.2.1
      (load_metadata_from_csv [("docs/space-bio.txt", "http://x/y")])
      "docs".data "space-bio".data '/' (by decide) (by decide) (by decide)
      (by decide) (by decide),
   resolve_normalization_behavior.2.2
      (load_metadata_from_csv [("docs/space-bio.txt", "http://x/y")])
      "space-bio".data "txt".data (by decide) (by decide) (by decide)
      (by decide) (by decide) (by decide) (by decide) (by decide) (by decide),
   resolve_normalization_behavior.1 [] "mystery-title" rfl⟩

end HungerWings
